import Mathlib

/-
Verification of the SSE-Auto-Translator slice consisting of
  src/translation_audio/audio_editor.py   (AudioTranslationEditor)
  src/utilities/localisation.py           (LocalisationSection, Localisator)
  src/settings/app_settings.py            (AppSettings)

The Python code is shallowly embedded: file-system paths become explicit
data, subprocess calls become queries to an external-world oracle that
reports the exit code and the files the tool created, and each operation
returns its resulting file-system state together with a trace of the
externally visible events it performed (tool invocations, success and
failure log lines for them, deletions, copies).
-/

/-- A file name, split as pathlib does into stem and suffix; the suffix
field holds the pathlib suffix of the name, dot included (empty when the
name has none), so that the pathlib operations suffix, stem and
with_suffix act on the fields directly. -/
structure FName where
  stem : String
  ext : String
deriving DecidableEq

/-- A file path: the directory components followed by the file name,
split like FName. -/
structure FPath where
  dir : List String
  stem : String
  ext : String
deriving DecidableEq

/-- Embeds pathlib with_suffix: the suffix is replaced (the call sites in
the source always pass a dotted suffix). -/
def FPath.withSuffix (p : FPath) (s : String) : FPath :=
  { p with ext := s }

/-- Renders a path as the string handed to subprocess argument lists. -/
def render (p : FPath) : String :=
  String.intercalate ("/") (p.dir ++ [p.stem ++ p.ext])

/-- Renders a directory path as a string. -/
def renderDir (d : List String) : String :=
  String.intercalate ("/") d

/-- The file-system state visible to the audio editor: the set of
existing files, as a list. -/
abbrev FS := List FPath

/-- Embeds AudioTranslationEditor.delete_file: unlink removes the file;
an OSError (for instance a missing file) is caught and logged, leaving
the file absent either way, so the result is the state without the
file. -/
def deleteFile (fs : FS) (p : FPath) : FS :=
  fs.filter fun q => decide (q ≠ p)

/-- An external tool invocation: the executable and its argument list,
exactly as built for subprocess.run in the source. -/
structure Cmd where
  tool : String
  args : List String
deriving DecidableEq

/-- Oracle for the external world: for each invocation, whether the
process exits with code zero (subprocess.run with check set raises
CalledProcessError otherwise), and which files the tool creates on
disk while it runs. -/
structure ExtWorld where
  exitZero : Cmd → Bool
  creates : Cmd → List FPath

/-- The file-system state after an external tool ran: the files it
created are now present (the tools in this slice never remove files). -/
def runCreates (ext : ExtWorld) (fs : FS) (c : Cmd) : FS :=
  fs ++ ext.creates c

/-- Externally visible events of an editor operation, in order. -/
inductive Ev where
  | run : Cmd → Ev
  | logOk : Cmd → Ev
  | logErr : Cmd → Ev
  | del : FPath → Ev
  | copy : FPath → FPath → Ev
deriving DecidableEq

/-- The log event emitted right after a subprocess.run: the success log
line on exit code zero, the caught-CalledProcessError log line
otherwise. -/
def logEv (ext : ExtWorld) (c : Cmd) : Ev :=
  cond (ext.exitZero c) (Ev.logOk c) (Ev.logErr c)

/-- The three external tool paths held by AudioTranslationEditor
(validated for existence at construction; construction itself is not
modelled since no claim concerns it). -/
structure Editor where
  bsarch_path : String
  bmlfuzdecode_path : String
  xwmaencode_path : String

/-- The command built by AudioTranslationEditor.convert_xwm:
[xwmaencode_path, file_path, file_path with suffix .wav]. -/
def xwmaCmd (ed : Editor) (p : FPath) : Cmd :=
  { tool := ed.xwmaencode_path, args := [render p, render (p.withSuffix (".wav"))] }

/-- Embeds AudioTranslationEditor.convert_xwm (audio_editor.py lines
210-225): runs the encoder on the input producing the .wav path beside
it, logs success or the caught CalledProcessError, and then calls
delete_file on the input unconditionally, on both branches. -/
def convert_xwm (ed : Editor) (ext : ExtWorld) (fs : FS) (p : FPath) : FS × List Ev :=
  (deleteFile (runCreates ext fs (xwmaCmd ed p)) p,
   [Ev.run (xwmaCmd ed p), logEv ext (xwmaCmd ed p), Ev.del p])

/-- The command built by AudioTranslationEditor.decode_fuz:
[bmlfuzdecode_path, file_path]. -/
def fuzCmd (ed : Editor) (p : FPath) : Cmd :=
  { tool := ed.bmlfuzdecode_path, args := [render p] }

/-- The file-system state right after the fuz decoder ran, which is the
state against which decode_fuz checks whether the companion .xwm file
exists. -/
def fsAfterFuzDecode (ed : Editor) (ext : ExtWorld) (fs : FS) (p : FPath) : FS :=
  runCreates ext fs (fuzCmd ed p)

/-- Embeds AudioTranslationEditor.decode_fuz (audio_editor.py lines
183-208): runs the decoder (logging success or the caught
CalledProcessError), then converts the companion .xwm file if it now
exists, then deletes the input file unconditionally, then deletes the
companion .lip file if it exists. -/
def decode_fuz (ed : Editor) (ext : ExtWorld) (fs : FS) (p : FPath) : FS × List Ev :=
  let fs1 := fsAfterFuzDecode ed ext fs p
  let xwm := p.withSuffix (".xwm")
  let conv := if xwm ∈ fs1 then convert_xwm ed ext fs1 xwm else (fs1, ([] : List Ev))
  let fs3 := deleteFile conv.1 p
  let lip := p.withSuffix (".lip")
  let fin := if lip ∈ fs3 then (deleteFile fs3 lip, [Ev.del lip]) else (fs3, ([] : List Ev))
  (fin.1, Ev.run (fuzCmd ed p) :: logEv ext (fuzCmd ed p) :: conv.2 ++ Ev.del p :: fin.2)

/-- Embeds the test in find_bsa_file: file.suffix.lower() == ".bsa",
computed per character so it evaluates inside the kernel. -/
def isBsa (f : FName) : Bool :=
  f.ext.data.map Char.toLower == (".bsa").data

/-- Embeds the test in find_audio_files:
file.lower().endswith((".fuz", ".xwm")) on the full file name. -/
def isAudio (f : FName) : Bool :=
  let n := (f.stem ++ f.ext).data.map Char.toLower
  ((".fuz").data.isSuffixOf n) || ((".xwm").data.isSuffixOf n)

/-- A mod directory as the editor observes it: its path, the names of
its immediate entries in iterdir order, and the os.walk output over its
tree, each entry holding the walked directory as components relative to
the mod path (the walk starts at the mod path itself, relative
components empty) together with the file names in it. -/
structure ModDir where
  path : List String
  children : List FName
  walk : List (List String × List FName)
deriving DecidableEq

/-- The directory of the audio_editor module itself, Path(__file__).parent
in the source. -/
def script_dir : List String := ["src", "translation_audio"]

/-- The fixed extraction workspace, script_dir / "extracted_files";
removed and recreated at the start of every extract_bsa call. -/
def extract_destination : List String := script_dir ++ ["extracted_files"]

/-- Embeds AudioTranslationEditor.find_bsa_file (audio_editor.py lines
109-122): the first immediate entry whose suffix lowercases to .bsa,
reported by name. -/
def find_bsa_file (children : List FName) : Option FName :=
  children.find? isBsa

/-- The path of an immediate child of the mod directory, mod_path /
file.name in the source. -/
def mkChildPath (modPath : List String) (c : FName) : FPath :=
  { dir := modPath, stem := c.stem, ext := c.ext }

/-- The command built by AudioTranslationEditor.extract_bsa:
[bsarch_path, "unpack", bsa_file_path, extract_destination]. -/
def bsarchCmd (ed : Editor) (mod : ModDir) (c : FName) : Cmd :=
  { tool := ed.bsarch_path,
    args := ["unpack", render (mkChildPath mod.path c), renderDir extract_destination] }

/-- Embeds AudioTranslationEditor.find_audio_files (audio_editor.py lines
124-153): walks the mod tree; every file whose lowered name ends in .fuz
or .xwm is copied into the workspace under the walked directory path
made relative to the mod path (destination directories are created as
needed, not tracked here); the workspace path is returned when at least
one such file was seen, None otherwise. -/
def find_audio_files (mod : ModDir) : Option (List String) × List Ev :=
  let evs := mod.walk.flatMap fun e =>
    (e.2.filter isAudio).map fun f =>
      Ev.copy { dir := mod.path ++ e.1, stem := f.stem, ext := f.ext }
              { dir := extract_destination ++ e.1, stem := f.stem, ext := f.ext }
  let found := mod.walk.any fun e => e.2.any isAudio
  (if found then some extract_destination else none, evs)

/-- Embeds AudioTranslationEditor.extract_bsa (audio_editor.py lines
61-107): the existing workspace is removed and recreated (not tracked
here); with an archive among the immediate children the extractor is
invoked once, the workspace is returned on exit code zero and None on a
caught CalledProcessError; with no archive the loose-file scan of
find_audio_files decides the result. -/
def extract_bsa (ed : Editor) (ext : ExtWorld) (mod : ModDir) : Option (List String) × List Ev :=
  match find_bsa_file mod.children with
  | some c =>
      let cmd := bsarchCmd ed mod c
      if ext.exitZero cmd
      then (some extract_destination, [Ev.run cmd, Ev.logOk cmd])
      else (none, [Ev.run cmd, Ev.logErr cmd])
  | none => find_audio_files mod

/-- A LocalisationSection (localisation.py lines 15-35): its name and
the key/value pairs that load_lang set on it from one JSON file. The
built-in bookkeeping attributes (the logger and the name) are outside
the model; entries holds exactly the loaded localisation attributes. -/
structure LocalisationSection where
  secName : String
  entries : List (String × String)
deriving DecidableEq

/-- Embeds LocalisationSection.__getattribute__ (localisation.py lines
30-35) on the loaded attributes: a present key yields its value and no
warning; a missing key yields the looked-up name itself and exactly one
logged warning. The second component counts the warnings logged by the
lookup. -/
def sectionGetattr (s : LocalisationSection) (n : String) : String × Nat :=
  match s.entries.lookup n with
  | some v => (v, 0)
  | none => (n, 1)

/-- The mutable state of a Localisator (localisation.py lines 38-104):
its language tag and the per-language directory it will load from. -/
structure Localisator where
  language : String
  lang_path : List String
deriving DecidableEq

/-- Embeds Localisator.__init__: the stored directory is the root joined
with the language tag. -/
def initLocalisator (lang : String) (root : List String) : Localisator :=
  { language := lang, lang_path := root ++ [lang] }

/-- Oracle for the platform facts load_lang consults: the outcome of
resolving the system locale (win32api.GetUserDefaultLangID followed by
the locale.windows_locale lookup, either the resolved tag or the raised
exception), whether a directory exists, and the JSON files a directory
glob yields, each as its file name with its parsed key/value pairs. -/
structure LocEnv where
  resolveSystem : Except String String
  isDir : List String → Bool
  globJson : List String → List (String × List (String × String))

/-- How a load_lang call ends: normally, having read the given JSON
files, or by an exception escaping to the caller. -/
inductive LoadOutcome where
  | ok : List (String × List (String × String)) → LoadOutcome
  | raised : String → LoadOutcome
deriving DecidableEq

/-- Embeds Localisator.load_lang (localisation.py lines 56-94), returning
the state the object is left in together with the outcome. When the tag
is "System" and resolution succeeds, tag and directory move to the
resolved locale. When resolution raises, the except branch first
overwrites the language with the literal "en _US" and then evaluates
self.lang_path.parent / system_language; system_language was only bound
in the try branch, so this raises UnboundLocalError out of the call with
the language already mutated and lang_path untouched. Otherwise the
missing-directory fallback replaces tag and directory with en_US before
the JSON files of the final directory are read. -/
def load_lang (env : LocEnv) (st : Localisator) : Localisator × LoadOutcome :=
  let step1 : Localisator × Option String :=
    if st.language == "System" then
      match env.resolveSystem with
      | Except.ok sys =>
          ({ language := sys, lang_path := st.lang_path.dropLast ++ [sys] }, none)
      | Except.error _ =>
          ({ st with language := "en _US" }, some ("UnboundLocalError"))
    else (st, none)
  match step1 with
  | (st1, some e) => (st1, LoadOutcome.raised e)
  | (st1, none) =>
      let st2 :=
        if env.isDir st1.lang_path then st1
        else { language := "en_US", lang_path := st1.lang_path.dropLast ++ ["en_US"] }
      (st2, LoadOutcome.ok (env.globJson st2.lang_path))

/-- Embeds the glob pattern "??_??" used by get_available_langs: fnmatch
translates each question mark to a match of one arbitrary character, so
a name matches exactly when it has five characters and the middle one is
an underscore. -/
def matchLangPat (n : String) : Bool :=
  decide (n.data.length = 5 ∧ n.data.get? 2 = some '_')

/-- Embeds Localisator.get_available_langs (localisation.py lines 96-97)
over a listing of the parent directory given as pairs of entry name and
whether the entry is a directory: glob matches names only, so the
directory flag is not consulted. -/
def get_available_langs (entries : List (String × Bool)) : List String :=
  (entries.filter fun e => matchLangPat e.1).map Prod.fst

/-- The shape the spec ascribes to an available language name: five
letters in the two-letter, underscore, two-letter arrangement. Modelled
from the words of the spec for comparison with the code. -/
def specLangShape (n : String) : Bool :=
  match n.data with
  | [a, b, u, c, d] => a.isAlpha && b.isAlpha && (u == '_') && c.isAlpha && d.isAlpha
  | _ => false

/-- A value of the settings mapping, tagged with its runtime type. -/
inductive SettingValue where
  | vInt : Int → SettingValue
  | vStr : String → SettingValue
  | vFloat : Rat → SettingValue
  | vBool : Bool → SettingValue
deriving DecidableEq

/-- The widget state of AppSettings (app_settings.py) as far as
get_settings reads it: the spin box value with the range guarantee of
setRange(-1, 100), the two combo box texts, the color line-edit text,
the double spin box value with the range guarantee of setRange(0, 1)
(the double modelled as a rational), and the check box state. -/
structure AppSettingsState where
  logs_num_value : Int
  log_level_text : String
  app_lang_text : String
  accent_color_text : String
  confidence_value : Rat
  bind_nxm_checked : Bool
  logs_num_in_range : -1 ≤ logs_num_value ∧ logs_num_value ≤ 100
  confidence_in_range : 0 ≤ confidence_value ∧ confidence_value ≤ 1

/-- Embeds AppSettings.get_settings (app_settings.py lines 117-125): the
six-entry mapping read off the widgets, the log level lowercased. -/
def get_settings (w : AppSettingsState) : List (String × SettingValue) :=
  [("keep_logs_num", SettingValue.vInt w.logs_num_value),
   ("log_level", SettingValue.vStr w.log_level_text.toLower),
   ("language", SettingValue.vStr w.app_lang_text),
   ("accent_color", SettingValue.vStr w.accent_color_text),
   ("detector_confidence", SettingValue.vFloat w.confidence_value),
   ("auto_bind_nxm", SettingValue.vBool w.bind_nxm_checked)]

/-- Concrete editor used by the witnesses. -/
def edW : Editor :=
  { bsarch_path := "tools/BSArch.exe",
    bmlfuzdecode_path := "tools/BmlFuzDecode.exe",
    xwmaencode_path := "tools/xWMAEncode.exe" }

/-- External world where every tool exits zero and creates nothing. -/
def extTrue : ExtWorld := { exitZero := fun _ => true, creates := fun _ => [] }

/-- External world where every tool exits zero and deposits the .xwm
companion of the witness voice file, as the fuz decoder does. -/
def extX : ExtWorld :=
  { exitZero := fun _ => true,
    creates := fun _ => [{ dir := ["v"], stem := "a", ext := ".xwm" }] }

/-- Witness mod directory holding one archive among its children. -/
def modArch : ModDir :=
  { path := ["mods", "ArchMod"],
    children := [{ stem := "voices", ext := ".bsa" }],
    walk := [] }

/-- Witness mod directory with no archive and one loose voice file
nested three directories deep. -/
def modLoose : ModDir :=
  { path := ["mods", "LooseMod"],
    children := [{ stem := "readme", ext := ".txt" }],
    walk := [([], []),
             (["sound"], []),
             (["sound", "voice"], []),
             (["sound", "voice", "modv"], [{ stem := "line1", ext := ".fuz" }])] }

/-- Witness voice file and starting file system for decode_fuz. -/
def pW : FPath := { dir := ["v"], stem := "a", ext := ".fuz" }

/-- Starting files for the decode_fuz witness: the voice file and its
lip companion. -/
def fsW : FS := [pW, { dir := ["v"], stem := "a", ext := ".lip" }]

/-- Witness localisation section with one loaded key. -/
def secW : LocalisationSection :=
  { secName := "values.json", entries := [("ok", "OK")] }

/-- Witness environment whose locale resolution raises. -/
def envC3 : LocEnv :=
  { resolveSystem := Except.error ("no locale"),
    isDir := fun _ => true,
    globJson := fun _ => [] }

/-- Witness Localisator constructed with the System sentinel. -/
def stC3 : Localisator := initLocalisator ("System") (["data", "loc"])

/-- Second failing-resolution environment, for the atomicity claim. -/
def envX : LocEnv :=
  { resolveSystem := Except.error ("boom"),
    isDir := fun _ => true,
    globJson := fun _ => [] }

/-- Second System-tagged Localisator, for the atomicity claim. -/
def stX : Localisator := initLocalisator ("System") (["data", "loc"])

/-- Witness environment with no directories and one JSON file. -/
def env7 : LocEnv :=
  { resolveSystem := Except.ok ("de_DE"),
    isDir := fun _ => false,
    globJson := fun _ => [("main.json", [("title", "Title")])] }

/-- Witness Localisator with an ordinary tag whose directory is absent. -/
def st7 : Localisator := initLocalisator ("fr_FR") (["data", "loc"])

lemma mem_deleteFile {fs : FS} {p r : FPath} :
    r ∈ deleteFile fs p ↔ r ∈ fs ∧ r ≠ p := by
  simp [deleteFile]

lemma mem_convert_xwm_fst {ed : Editor} {ext : ExtWorld} {fs : FS} {p r : FPath} :
    r ∈ (convert_xwm ed ext fs p).1 ↔
      (r ∈ fs ∨ r ∈ ext.creates (xwmaCmd ed p)) ∧ r ≠ p := by
  simp [convert_xwm, runCreates, mem_deleteFile]

/-- Claim C1: for every input file path, convert_xwm invokes the external
encoder to produce a .wav file alongside the input, and then deletes the
input file, regardless of whether the encoder exited with code zero or
nonzero; the trace shows the single encoder invocation with the input and
the sibling .wav path as arguments, the branch-dependent log line, and the
deletion performed on both branches, and the input is absent from the
resulting file system. The external world is arbitrary, so both exit
codes are covered. -/
theorem convert_xwm_always_deletes_input (ed : Editor) (ext : ExtWorld) (fs : FS) (p : FPath) :
    (convert_xwm ed ext fs p).2 =
      [Ev.run (xwmaCmd ed p),
       cond (ext.exitZero (xwmaCmd ed p)) (Ev.logOk (xwmaCmd ed p)) (Ev.logErr (xwmaCmd ed p)),
       Ev.del p] ∧
    (xwmaCmd ed p).args = [render p, render (p.withSuffix (".wav"))] ∧
    (p.withSuffix (".wav")).dir = p.dir ∧
    p ∉ (convert_xwm ed ext fs p).1 := by
  refine ⟨rfl, rfl, rfl, ?_⟩
  simp [convert_xwm, mem_deleteFile]

/-- Claim C2: for every .fuz file path, decode_fuz always deletes the
original .fuz file regardless of the decoder exit code (the external
world is arbitrary); if the companion .xwm file with the same stem exists
after the decoder ran, it is converted via convert_xwm (its encoder
invocation and its deletion appear in the trace); and if the companion
.lip file with the same stem exists it is deleted as well. -/
theorem decode_fuz_behaviour (ed : Editor) (ext : ExtWorld) (fs : FS) (p : FPath)
    (h : p.ext = ".fuz") :
    Ev.del p ∈ (decode_fuz ed ext fs p).2 ∧
    p ∉ (decode_fuz ed ext fs p).1 ∧
    (p.withSuffix (".xwm") ∈ fsAfterFuzDecode ed ext fs p →
        Ev.run (xwmaCmd ed (p.withSuffix (".xwm"))) ∈ (decode_fuz ed ext fs p).2 ∧
        Ev.del (p.withSuffix (".xwm")) ∈ (decode_fuz ed ext fs p).2) ∧
    (p.withSuffix (".lip") ∈ fs →
        Ev.del (p.withSuffix (".lip")) ∈ (decode_fuz ed ext fs p).2 ∧
        p.withSuffix (".lip") ∉ (decode_fuz ed ext fs p).1) := by
  have hxp : p.withSuffix (".xwm") ≠ p := by
    intro he
    have hq : (".xwm" : String) = p.ext := congrArg FPath.ext he
    rw [h] at hq
    exact absurd hq (by decide)
  have hlp : p.withSuffix (".lip") ≠ p := by
    intro he
    have hq : (".lip" : String) = p.ext := congrArg FPath.ext he
    rw [h] at hq
    exact absurd hq (by decide)
  have hlx : p.withSuffix (".lip") ≠ p.withSuffix (".xwm") := by
    intro he
    have hq : (".lip" : String) = ".xwm" := congrArg FPath.ext he
    exact absurd hq (by decide)
  by_cases hx : p.withSuffix (".xwm") ∈ fsAfterFuzDecode ed ext fs p
  · have hlip1 : p.withSuffix (".lip") ∈ fs →
        p.withSuffix (".lip") ∈
          deleteFile (convert_xwm ed ext (fsAfterFuzDecode ed ext fs p) (p.withSuffix (".xwm"))).1 p := by
      intro hin
      rw [mem_deleteFile, mem_convert_xwm_fst]
      refine ⟨⟨Or.inl ?_, hlx⟩, hlp⟩
      simp [fsAfterFuzDecode, runCreates, hin]
    by_cases hl : p.withSuffix (".lip") ∈
        deleteFile (convert_xwm ed ext (fsAfterFuzDecode ed ext fs p) (p.withSuffix (".xwm"))).1 p
    · refine ⟨?_, ?_, ?_, ?_⟩
      · simp [decode_fuz, hx, hl]
      · simp [decode_fuz, hx, hl, mem_deleteFile]
      · intro _
        constructor
        · simp [decode_fuz, hx, hl, convert_xwm]
        · simp [decode_fuz, hx, hl, convert_xwm]
      · intro hin
        constructor
        · simp [decode_fuz, hx, hl]
        · simp [decode_fuz, hx, hl, mem_deleteFile]
    · refine ⟨?_, ?_, ?_, ?_⟩
      · simp [decode_fuz, hx, hl]
      · simp [decode_fuz, hx, hl, mem_deleteFile]
      · intro _
        constructor
        · simp [decode_fuz, hx, hl, convert_xwm]
        · simp [decode_fuz, hx, hl, convert_xwm]
      · intro hin
        exact absurd (hlip1 hin) hl
  · have hlip1 : p.withSuffix (".lip") ∈ fs →
        p.withSuffix (".lip") ∈ deleteFile (fsAfterFuzDecode ed ext fs p) p := by
      intro hin
      rw [mem_deleteFile]
      refine ⟨?_, hlp⟩
      simp [fsAfterFuzDecode, runCreates, hin]
    by_cases hl : p.withSuffix (".lip") ∈ deleteFile (fsAfterFuzDecode ed ext fs p) p
    · refine ⟨?_, ?_, ?_, ?_⟩
      · simp [decode_fuz, hx, hl]
      · simp [decode_fuz, hx, hl, mem_deleteFile]
      · intro hc
        exact absurd hc hx
      · intro hin
        constructor
        · simp [decode_fuz, hx, hl]
        · simp [decode_fuz, hx, hl, mem_deleteFile]
    · refine ⟨?_, ?_, ?_, ?_⟩
      · simp [decode_fuz, hx, hl]
      · simp [decode_fuz, hx, hl, mem_deleteFile]
      · intro hc
        exact absurd hc hx
      · intro hin
        exact absurd (hlip1 hin) hl

/-- Witness for claim C2: the concrete voice file v/a.fuz with its lip
companion on disk, under a world whose decoder deposits v/a.xwm; all
hypotheses of decode_fuz_behaviour are discharged on this input. -/
theorem decode_fuz_behaviour_witness :
    pW.ext = ".fuz" ∧
    (Ev.del pW ∈ (decode_fuz edW extX fsW pW).2 ∧
     pW ∉ (decode_fuz edW extX fsW pW).1 ∧
     (pW.withSuffix (".xwm") ∈ fsAfterFuzDecode edW extX fsW pW →
         Ev.run (xwmaCmd edW (pW.withSuffix (".xwm"))) ∈ (decode_fuz edW extX fsW pW).2 ∧
         Ev.del (pW.withSuffix (".xwm")) ∈ (decode_fuz edW extX fsW pW).2) ∧
     (pW.withSuffix (".lip") ∈ fsW →
         Ev.del (pW.withSuffix (".lip")) ∈ (decode_fuz edW extX fsW pW).2 ∧
         pW.withSuffix (".lip") ∉ (decode_fuz edW extX fsW pW).1)) :=
  ⟨rfl, decode_fuz_behaviour edW extX fsW pW rfl⟩

/-- Claim C4: for every mod directory whose immediate children contain a
.bsa archive, extract_bsa invokes the external extractor exactly once
(the trace holds a single run event) with arguments unpack, archive path,
workspace path, returns the workspace path when the extractor exits with
code zero and None when it exits nonzero. -/
theorem extract_bsa_archive_branch (ed : Editor) (ext : ExtWorld) (mod : ModDir)
    (h : mod.children.any isBsa = true) :
    ∃ c, c ∈ mod.children ∧ isBsa c = true ∧
      (bsarchCmd ed mod c).args =
        ["unpack", render (mkChildPath mod.path c), renderDir extract_destination] ∧
      extract_bsa ed ext mod =
        (cond (ext.exitZero (bsarchCmd ed mod c)) (some extract_destination) none,
         [Ev.run (bsarchCmd ed mod c),
          cond (ext.exitZero (bsarchCmd ed mod c)) (Ev.logOk (bsarchCmd ed mod c))
            (Ev.logErr (bsarchCmd ed mod c))]) := by
  obtain ⟨x, hx, hpx⟩ := List.any_eq_true.mp h
  have hsome : (mod.children.find? isBsa).isSome := by
    rw [List.find?_isSome]
    exact ⟨x, hx, hpx⟩
  obtain ⟨c, hc⟩ := Option.isSome_iff_exists.mp hsome
  refine ⟨c, List.mem_of_find?_eq_some hc, List.find?_some hc, rfl, ?_⟩
  unfold extract_bsa find_bsa_file
  rw [hc]
  cases hz : ext.exitZero (bsarchCmd ed mod c) <;> simp [hz]

/-- Witness for claim C4: a mod directory with the single child
voices.bsa under an all-successful external world; the hypothesis of
extract_bsa_archive_branch is discharged on it. -/
theorem extract_bsa_archive_branch_witness :
    modArch.children.any isBsa = true ∧
    (∃ c, c ∈ modArch.children ∧ isBsa c = true ∧
      (bsarchCmd edW modArch c).args =
        ["unpack", render (mkChildPath modArch.path c), renderDir extract_destination] ∧
      extract_bsa edW extTrue modArch =
        (cond (extTrue.exitZero (bsarchCmd edW modArch c)) (some extract_destination) none,
         [Ev.run (bsarchCmd edW modArch c),
          cond (extTrue.exitZero (bsarchCmd edW modArch c)) (Ev.logOk (bsarchCmd edW modArch c))
            (Ev.logErr (bsarchCmd edW modArch c))])) :=
  ⟨by decide, extract_bsa_archive_branch edW extTrue modArch (by decide)⟩

/-- Claim C5: for every mod directory with no archive among its
immediate children, every .fuz or .xwm file in the walked tree is copied
into the workspace at the path obtained by replacing the mod-directory
prefix with the workspace prefix, and extract_bsa returns the workspace
path when such a file exists and None when the tree holds none. -/
theorem extract_bsa_loose_branch (ed : Editor) (ext : ExtWorld) (mod : ModDir)
    (h : mod.children.any isBsa = false) :
    (∀ rel files f, (rel, files) ∈ mod.walk → f ∈ files → isAudio f = true →
       Ev.copy { dir := mod.path ++ rel, stem := f.stem, ext := f.ext }
               { dir := extract_destination ++ rel, stem := f.stem, ext := f.ext }
         ∈ (extract_bsa ed ext mod).2) ∧
    ((mod.walk.any fun e => e.2.any isAudio) = true →
       (extract_bsa ed ext mod).1 = some extract_destination) ∧
    ((mod.walk.any fun e => e.2.any isAudio) = false →
       (extract_bsa ed ext mod).1 = none) := by
  have hfind : find_bsa_file mod.children = none := by
    unfold find_bsa_file
    rw [List.find?_eq_none]
    intro x hx hpx
    have hany : mod.children.any isBsa = true := List.any_eq_true.mpr ⟨x, hx, hpx⟩
    rw [h] at hany
    exact absurd hany (by decide)
  have hexb : extract_bsa ed ext mod = find_audio_files mod := by
    unfold extract_bsa
    rw [hfind]
  refine ⟨?_, ?_, ?_⟩
  · intro rel files f hw hf ha
    rw [hexb]
    simp only [find_audio_files]
    refine List.mem_flatMap.mpr ⟨(rel, files), hw, ?_⟩
    exact List.mem_map.mpr ⟨f, List.mem_filter.mpr ⟨hf, ha⟩, rfl⟩
  · intro hfound
    rw [hexb]
    simp [find_audio_files, hfound]
  · intro hfound
    rw [hexb]
    simp [find_audio_files, hfound]

/-- Witness for claim C5: the archive-free mod directory with one voice
file three directories deep; the hypotheses of extract_bsa_loose_branch
are discharged on it and the resulting copy lands at the mirrored
workspace path. -/
theorem extract_bsa_loose_branch_witness :
    modLoose.children.any isBsa = false ∧
    Ev.copy { dir := ["mods", "LooseMod", "sound", "voice", "modv"], stem := "line1", ext := ".fuz" }
           { dir := extract_destination ++ ["sound", "voice", "modv"], stem := "line1", ext := ".fuz" }
      ∈ (extract_bsa edW extTrue modLoose).2 ∧
    (extract_bsa edW extTrue modLoose).1 = some extract_destination :=
  ⟨by decide,
   (extract_bsa_loose_branch edW extTrue modLoose (by decide)).1
     (["sound", "voice", "modv"]) ([{ stem := "line1", ext := ".fuz" }])
     ({ stem := "line1", ext := ".fuz" }) (by decide) (by decide) (by decide),
   (extract_bsa_loose_branch edW extTrue modLoose (by decide)).2.1 (by decide)⟩

/-- Claim C3 (evaluation of the code at the failing input): with the
language tag set to the System sentinel and locale resolution raising,
load_lang does not fall back and continue; it terminates by raising the
unbound-variable fault of the except branch, with the language already
overwritten by the literal "en _US". This contradicts the claim that the
call does not raise to its caller. -/
theorem load_lang_system_error_crashes :
    (load_lang envC3 stC3).2 = LoadOutcome.raised ("UnboundLocalError") ∧
    (load_lang envC3 stC3).1.language = "en _US" ∧
    (load_lang envC3 stC3).1.lang_path = ["data", "loc", "System"] := by
  decide

/-- Claim C6: for every localisation section and every attribute name
not among its loaded entries, the lookup returns the looked-up name
itself and logs exactly one warning. -/
theorem section_missing_key_returns_name (s : LocalisationSection) (n : String)
    (h : s.entries.lookup n = none) :
    sectionGetattr s n = (n, 1) := by
  simp [sectionGetattr, h]

/-- Witness for claim C6: the section loaded from values.json does not
hold the key cancel, so the lookup yields the name cancel and one
warning. -/
theorem section_missing_key_returns_name_witness :
    secW.entries.lookup ("cancel") = none ∧
    sectionGetattr secW ("cancel") = ("cancel", 1) :=
  ⟨by decide, section_missing_key_returns_name secW ("cancel") (by decide)⟩

/-- Claim C7: for every language tag other than the System sentinel
whose directory does not exist, load_lang replaces the language with the
fixed default en_US and reads the JSON files of the default directory
under the same root. -/
theorem load_lang_missing_dir_falls_back (env : LocEnv) (st : Localisator)
    (h1 : st.language ≠ "System") (h2 : env.isDir st.lang_path = false) :
    load_lang env st =
      ({ language := "en_US", lang_path := st.lang_path.dropLast ++ ["en_US"] },
       LoadOutcome.ok (env.globJson (st.lang_path.dropLast ++ ["en_US"]))) := by
  have hb : (st.language == "System") = false := beq_eq_false_iff_ne.mpr h1
  simp [load_lang, hb, h2]

/-- Witness for claim C7: the tag fr_FR in an environment with no
directories; load_lang lands on en_US and reads the JSON of the default
directory. -/
theorem load_lang_missing_dir_falls_back_witness :
    st7.language ≠ "System" ∧
    env7.isDir st7.lang_path = false ∧
    load_lang env7 st7 =
      ({ language := "en_US", lang_path := ["data", "loc", "en_US"] },
       LoadOutcome.ok ([("main.json", [("title", "Title")])])) :=
  ⟨by decide, rfl, load_lang_missing_dir_falls_back env7 st7 (by decide) rfl⟩

/-- Claim C10: when the language tag is the System sentinel and locale
resolution raises, load_lang is not atomic on error: the call ends in a
raise, but the language attribute has already been overwritten with the
literal "en _US" (with its interior space), so the pre-call language
state is not preserved on the failure path. -/
theorem load_lang_system_error_overwrites (env : LocEnv) (st : Localisator) (e : String)
    (h1 : st.language = "System") (h2 : env.resolveSystem = Except.error e) :
    (load_lang env st).1.language = "en _US" ∧
    (load_lang env st).1.language ≠ st.language ∧
    (load_lang env st).2 = LoadOutcome.raised ("UnboundLocalError") := by
  have hb : (st.language == "System") = true := beq_iff_eq.mpr h1
  refine ⟨?_, ?_, ?_⟩ <;> simp [load_lang, hb, h2, h1]

/-- Witness for claim C10: the System-tagged Localisator under a world
whose locale resolution raises; both hypotheses of
load_lang_system_error_overwrites are discharged on it. -/
theorem load_lang_system_error_overwrites_witness :
    stX.language = "System" ∧
    envX.resolveSystem = Except.error ("boom") ∧
    ((load_lang envX stX).1.language = "en _US" ∧
     (load_lang envX stX).1.language ≠ stX.language ∧
     (load_lang envX stX).2 = LoadOutcome.raised ("UnboundLocalError")) :=
  ⟨rfl, rfl, load_lang_system_error_overwrites envX stX ("boom") rfl rfl⟩

/-- Claim C8: for every state of the settings widgets, get_settings
returns the mapping with exactly the six keys keep_logs_num, log_level,
language, accent_color, detector_confidence and auto_bind_nxm, in that
order, whose values carry the declared types, with the integer inside
-1..100 and the confidence inside 0..1 as the widget ranges guarantee. -/
theorem get_settings_six_keys (w : AppSettingsState) :
    (get_settings w).map Prod.fst =
      ["keep_logs_num", "log_level", "language", "accent_color",
       "detector_confidence", "auto_bind_nxm"] ∧
    ∃ i s1 s2 s3 q b,
      get_settings w =
        [("keep_logs_num", SettingValue.vInt i),
         ("log_level", SettingValue.vStr s1),
         ("language", SettingValue.vStr s2),
         ("accent_color", SettingValue.vStr s3),
         ("detector_confidence", SettingValue.vFloat q),
         ("auto_bind_nxm", SettingValue.vBool b)] ∧
      -1 ≤ i ∧ i ≤ 100 ∧ 0 ≤ q ∧ q ≤ 1 :=
  ⟨rfl,
   w.logs_num_value, w.log_level_text.toLower, w.app_lang_text, w.accent_color_text,
   w.confidence_value, w.bind_nxm_checked,
   rfl, w.logs_num_in_range.1, w.logs_num_in_range.2,
   w.confidence_in_range.1, w.confidence_in_range.2⟩

/-- Claim C9, counterexample: a non-directory entry named 12_34, none of
whose characters are letters, is nevertheless returned by
get_available_langs, because the glob pattern constrains neither the
entry type nor the character classes; this refutes the claim that such
entries are not included. -/
theorem get_available_langs_counterexample :
    "12_34" ∈ get_available_langs ([("12_34", false)]) ∧
    (("12_34", true) ∉ ([("12_34", false)] : List (String × Bool))) ∧
    specLangShape ("12_34") = false := by
  decide

/-- Claim C9 as amended: get_available_langs returns exactly the names
of the entries of the parent directory listing, directories or not,
whose names have five characters with an underscore as the middle one,
the remaining characters arbitrary. -/
theorem get_available_langs_members (entries : List (String × Bool)) (n : String) :
    n ∈ get_available_langs entries ↔
      ∃ d, (n, d) ∈ entries ∧ n.data.length = 5 ∧ n.data.get? 2 = some '_' := by
  constructor
  · intro hn
    obtain ⟨e, he, hfst⟩ := List.mem_map.mp hn
    obtain ⟨hent, hmatch⟩ := List.mem_filter.mp he
    rw [matchLangPat, decide_eq_true_iff] at hmatch
    refine ⟨e.2, ?_, ?_, ?_⟩
    · rw [← hfst]
      exact hent
    · rw [← hfst]
      exact hmatch.1
    · rw [← hfst]
      exact hmatch.2
  · intro hex
    obtain ⟨d, hent, hlen, hmid⟩ := hex
    refine List.mem_map.mpr ⟨(n, d), List.mem_filter.mpr ⟨hent, ?_⟩, rfl⟩
    rw [matchLangPat, decide_eq_true_iff]
    exact ⟨hlen, hmid⟩
